import Mathlib

set_option maxHeartbeats 1000000

/-!
Shallow embedding of `wolf-inv.go`: a terminal dashboard over a remote
server inventory.  The session controller (`Update` and its mode handlers),
the add/edit wizard, the delete confirmation, the table projection and the
remote-client commands are translated as pure Lean functions; asynchronous
work is represented by an explicit `Eff` list returned alongside the new
model, and the HTTP world of the client commands by explicit outcome
parameters.  Strings stand for Go strings (lengths are counted in
characters where Go counts bytes; all inputs of interest here are ASCII,
where the two coincide).  The wall-clock timestamp read by the
successful-fetch handler is passed in as the `now` parameter.
-/

namespace WolfInv

/-- Server (wolf-inv.go 52-58): one inventory entry. -/
structure Server where
  name : String
  ip : String
  location : String
  status : String
  lastReport : String
deriving DecidableEq, Repr

/-- The zero value `Server{}` used when entering add mode (line 194). -/
def Server.zero : Server := ⟨"", "", "", "", ""⟩

/-- State (lines 60-69): the current mode of the TUI. -/
inductive State
  | Viewing
  | Adding
  | Editing
  | Deleting
  | Help
deriving DecidableEq, Repr

/-- AddingState (lines 71-80): the wizard step. -/
inductive AddingState
  | InputName
  | InputIP
  | InputLocation
  | InputStatus
  | Confirm
deriving DecidableEq, Repr

/-- The three lipgloss styles ever assigned to `currentMsgStyle`:
`messageStyle` (plain), `successStyle` (green) and `cancelStyle`
(yellow; the code reuses it for errors, line 248). -/
inductive MsgStyle
  | plain
  | success
  | cancel
deriving DecidableEq, Repr

/-- The three status-cell styles of `viewingView` (lines 396-404):
`onlineStyle`, `offlineStyle`, `otherStyle`. -/
inductive StatusStyle
  | online
  | offline
  | other
deriving DecidableEq, Repr

/-- The messages delivered to `Update`: key presses (identified by the
string `tea.KeyMsg.String()` returns), window resizes, the two network
results `serverMsg`/`errMsg`, the poll tick `fetchServersMsg` and the
message-expiry `clearMessage`. -/
inductive Msg
  | key (k : String)
  | winSize (w h : Nat)
  | serverList (servers : List Server)
  | errM (text : String)
  | fetchTimer
  | clearMsg
deriving DecidableEq, Repr

/-- The asynchronous effects a transition can return: `fetchServers`,
`addOrEditServer`, `deleteServer`, `pollForUpdates` (a `tea.Tick`),
`textinput.Blink` and `tea.Quit`. -/
inductive Eff
  | fetch
  | addOrEdit (sv : Server)
  | deleteSrv (name : String)
  | tick
  | blink
  | quit
deriving DecidableEq, Repr

/-- Holds exactly for the create-or-update (submit) effect. -/
def Eff.isSubmit : Eff → Bool
  | Eff.addOrEdit _ => true
  | _ => false

/-- Go struct model (lines 106-134).  The bubbles sub-models are kept at the
granularity the controller reads them: the table as its rows plus cursor,
the text input as its value/placeholder/focus, the status list as its
items plus selection index.  `timerArmed` stands for `messageTimer`
holding a timer that has been neither stopped nor fired. -/
structure Model where
  servers : List Server
  err : Option String
  loading : Bool
  message : String
  state : State
  addingState : AddingState
  tableRows : List (List String)
  tableCursor : Nat
  textValue : String
  textPlaceholder : String
  textFocused : Bool
  statusItems : List String
  statusIndex : Nat
  currentServer : Server
  deleteTarget : String
  currentMsgStyle : MsgStyle
  timerArmed : Bool
deriving DecidableEq, Repr

/-- Whitespace in the sense of Go's `unicode.IsSpace` restricted to the
code points it names for Latin-1: space, tab, newline, vertical tab,
form feed, carriage return, NEL and NBSP. -/
def isSpaceGo (c : Char) : Bool :=
  c = ' ' ∨ c = '\t' ∨ c = '\n' ∨ c = '\x0b' ∨ c = '\x0c' ∨ c = '\r' ∨
    c = '\x85' ∨ c = '\xa0'

/-- Go strings.TrimSpace on the character list: drop leading then trailing
whitespace. -/
def trimChars (l : List Char) : List Char :=
  ((l.dropWhile isSpaceGo).reverse.dropWhile isSpaceGo).reverse

/-- Go strings.TrimSpace (used at line 222 when snapshotting the selected
row for editing). -/
def trimSpace (s : String) : String := String.mk (trimChars s.data)

/-- The status-cell padding of `updateTable` (lines 469-472): pad with
trailing spaces to 12 columns when shorter. -/
def padStatus (s : String) : String :=
  if s.length < 12 then s ++ String.mk (List.replicate (12 - s.length) ' ')
  else s

/-- One table row per server (line 473): name, ip, location, padded
status, last report. -/
def serverRow (sv : Server) : List String :=
  [sv.name, sv.ip, sv.location, padStatus sv.status, sv.lastReport]

/-- updateTable (lines 461-481): rebuild the rows from `servers`.
Column titles and lipgloss table styles carry no controller state and are
not modelled. -/
def Model.updateTable (m : Model) : Model :=
  { m with tableRows := m.servers.map serverRow }

/-- The call m.table.SelectedRow(): the row under the cursor. -/
def Model.selectedRow (m : Model) : List String :=
  m.tableRows.getD m.tableCursor []

/-- setTempMessage (lines 484-493): record the message and style, stop
any pending expiry timer and arm a fresh one (2 s, firing `clearMessage`). -/
def setTempMessage (m : Model) (style : MsgStyle) (text : String) : Model :=
  { m with message := text, currentMsgStyle := style, timerArmed := true }

/-- Model of the external `bubbles/textinput` update: a single-character
key is typed into the field, backspace deletes, every other message
leaves the value as it is (in particular enter and network results do
not change it). -/
def textInputUpdate (v : String) (msg : Msg) : String :=
  match msg with
  | Msg.key k =>
      if k = "backspace" then v.dropRight 1
      else if k.length = 1 then v ++ k
      else v
  | _ => v

/-- Model of the external `bubbles/list` update for the status list: the
default keymap moves the selection with up/k and down/j, clamped to the
item range; everything else leaves the index. -/
def statusListUpdate (idx n : Nat) (msg : Msg) : Nat :=
  match msg with
  | Msg.key k =>
      if k = "up" ∨ k = "k" then idx - 1
      else if k = "down" ∨ k = "j" then min (idx + 1) (n - 1)
      else idx
  | _ => idx

/-- Model of the external `bubbles/table` update reached by the
fall-through `m.table.Update(msg)` of `updateViewing` (line 255): the
default keymap moves the cursor with up/k and down/j, clamped to the row
range; non-key messages leave the table as it is. -/
def tableUpdate (m : Model) (msg : Msg) : Model :=
  match msg with
  | Msg.key k =>
      if k = "up" ∨ k = "k" then { m with tableCursor := m.tableCursor - 1 }
      else if k = "down" ∨ k = "j" then
        { m with tableCursor := min (m.tableCursor + 1) (m.tableRows.length - 1) }
      else m
  | _ => m

/-- updateViewing (lines 177-257).  The parameter `now` is the formatted wall-clock
time `time.Now().Format("15:04:05")` read in the `serverMsg` branch. -/
def updateViewing (now : String) (m : Model) (msg : Msg) : Model × List Eff :=
  match msg with
  | Msg.key k =>
      if k = "ctrl+c" ∨ k = "q" then (m, [Eff.quit])
      else if k = "r" then
        ({ m with loading := true, message := "Refreshing data...",
                  currentMsgStyle := MsgStyle.plain }, [Eff.fetch])
      else if k = "a" then
        ({ m with state := State.Adding, addingState := AddingState.InputName,
                  currentServer := Server.zero,
                  textPlaceholder := "Name", textFocused := true, textValue := "",
                  message := "Adding new server (Step 1 of 4):",
                  currentMsgStyle := MsgStyle.plain }, [Eff.blink])
      else if k = "d" then
        (if 0 < m.servers.length ∧ 0 < m.selectedRow.length then
           { m with deleteTarget := m.selectedRow.headD "",
                    state := State.Deleting, message := "" }
         else m, [])
      else if k = "e" then
        if 0 < m.servers.length ∧ 0 < m.selectedRow.length then
          ({ m with state := State.Editing, addingState := AddingState.InputName,
                    currentServer :=
                      { name := m.selectedRow.getD 0 "",
                        ip := m.selectedRow.getD 1 "",
                        location := m.selectedRow.getD 2 "",
                        status := trimSpace (m.selectedRow.getD 3 ""),
                        lastReport := m.selectedRow.getD 4 "" },
                    textPlaceholder := "Name", textFocused := true,
                    textValue := m.selectedRow.getD 0 "",
                    message := "Editing server (Step 1 of 4):",
                    currentMsgStyle := MsgStyle.plain }, [Eff.blink])
        else (tableUpdate m msg, [])
      else if k = "?" then ({ m with state := State.Help }, [])
      else (tableUpdate m msg, [])
  | Msg.serverList ss =>
      let m1 := Model.updateTable
        { m with loading := false, err := none, servers := ss }
      let text := "Inventory refreshed at " ++ now
      (tableUpdate (setTempMessage { m1 with message := text }
          MsgStyle.success text) msg, [])
  | Msg.errM t =>
      (tableUpdate { m with loading := false, err := some t, message := t,
                            currentMsgStyle := MsgStyle.cancel } msg, [])
  | Msg.fetchTimer => (m, [Eff.fetch])
  | Msg.clearMsg =>
      (tableUpdate { m with currentMsgStyle := MsgStyle.plain } msg, [])
  | Msg.winSize _ _ => (m, [])

/-- updateAddingEditing (lines 260-321): the add/edit wizard. -/
def updateAddingEditing (m : Model) (msg : Msg) : Model × List Eff :=
  if msg = Msg.key "esc" then
    (setTempMessage { m with state := State.Viewing, textFocused := false }
       MsgStyle.cancel "Cancelled.", [])
  else
    match m.addingState with
    | AddingState.InputName =>
        let m1 := { m with textValue := textInputUpdate m.textValue msg }
        if msg = Msg.key "enter" then
          ({ m1 with currentServer := { m1.currentServer with name := m1.textValue },
                     addingState := AddingState.InputIP,
                     textPlaceholder := "IP Address",
                     textValue := m1.currentServer.ip,
                     message := "Adding new server (Step 2 of 4):" }, [Eff.blink])
        else (m1, [])
    | AddingState.InputIP =>
        let m1 := { m with textValue := textInputUpdate m.textValue msg }
        if msg = Msg.key "enter" then
          ({ m1 with currentServer := { m1.currentServer with ip := m1.textValue },
                     addingState := AddingState.InputLocation,
                     textPlaceholder := "Location",
                     textValue := m1.currentServer.location,
                     message := "Adding new server (Step 3 of 4):" }, [Eff.blink])
        else (m1, [])
    | AddingState.InputLocation =>
        let m1 := { m with textValue := textInputUpdate m.textValue msg }
        if msg = Msg.key "enter" then
          ({ m1 with currentServer := { m1.currentServer with location := m1.textValue },
                     addingState := AddingState.InputStatus,
                     textFocused := false,
                     message := "Adding new server (Step 4 of 4):" }, [Eff.blink])
        else (m1, [])
    | AddingState.InputStatus =>
        let m1 := { m with statusIndex :=
                      statusListUpdate m.statusIndex m.statusItems.length msg }
        if msg = Msg.key "enter" then
          ({ m1 with currentServer :=
                       { m1.currentServer with
                           status := m1.statusItems.getD m1.statusIndex "" },
                     addingState := AddingState.Confirm, message := "" }, [])
        else (m1, [])
    | AddingState.Confirm =>
        match msg with
        | Msg.key k =>
            if k = "y" ∨ k = "Y" then
              (setTempMessage { m with state := State.Viewing, loading := true }
                 MsgStyle.success "Submitting server data...",
               [Eff.addOrEdit m.currentServer])
            else if k = "n" ∨ k = "N" then
              (setTempMessage { m with state := State.Viewing }
                 MsgStyle.cancel "Cancelled.", [])
            else (m, [])
        | _ => (m, [])

/-- updateDeleting (lines 324-341).  The quotes the code puts around
the target name are written as `\x27`. -/
def updateDeleting (m : Model) (msg : Msg) : Model × List Eff :=
  match msg with
  | Msg.key k =>
      if k = "y" ∨ k = "Y" then
        (setTempMessage { m with state := State.Viewing, loading := true }
           MsgStyle.success
           ("Deleting server \x27" ++ m.deleteTarget ++ "\x27..."),
         [Eff.deleteSrv m.deleteTarget])
      else if k = "n" ∨ k = "N" ∨ k = "esc" then
        (setTempMessage { m with state := State.Viewing }
           MsgStyle.cancel "Deletion cancelled.", [])
      else (m, [])
  | _ => (m, [])

/-- updateHelp (lines 344-349): any key returns to Viewing. -/
def updateHelp (m : Model) (msg : Msg) : Model × List Eff :=
  match msg with
  | Msg.key _ => ({ m with state := State.Viewing }, [])
  | _ => (m, [])

/-- Update (lines 145-174): window resizes are handled globally; a key
press first stops any pending message-expiry timer; then the message is
dispatched on the current mode. -/
def update (now : String) (m : Model) (msg : Msg) : Model × List Eff :=
  match msg with
  | Msg.winSize _ _ => (tableUpdate m msg, [])
  | _ =>
      let m1 := match msg with
        | Msg.key _ => { m with timerArmed := false }
        | _ => m
      match m1.state with
      | State.Viewing => updateViewing now m1 msg
      | State.Adding => updateAddingEditing m1 msg
      | State.Editing => updateAddingEditing m1 msg
      | State.Deleting => updateDeleting m1 msg
      | State.Help => updateHelp m1 msg

/-- Process a list of key presses through `update`, accumulating the
effects each transition returns. -/
def processKeys (now : String) (m : Model) (ks : List String) :
    Model × List Eff :=
  match ks with
  | [] => (m, [])
  | k :: rest =>
      let r := update now m (Msg.key k)
      let r2 := processKeys now r.1 rest
      (r2.1, r.2 ++ r2.2)

/-- The status-cell style selection of `viewingView` (lines 396-404). -/
def statusStyleOf (st : String) : StatusStyle :=
  if st = "Online" then StatusStyle.online
  else if st = "Offline" then StatusStyle.offline
  else StatusStyle.other

/-- The alternating-background condition of `viewingView` (line 411): a
row gets the subdued background exactly when its position is odd and it
is not the selected row. -/
def altBackground (serverIndex selectedRowIndex : Nat) : Bool :=
  (serverIndex % 2 == 1) && (serverIndex != selectedRowIndex)

/-- Init (lines 137-140): one initial fetch and one 30-second
`pollForUpdates` tick. -/
def initEffects : List Eff := [Eff.fetch, Eff.tick]

/-- The model `main` builds (lines 606-629), after its `updateTable` and
`Focus` calls. -/
def initModel : Model := Model.updateTable
  { servers := [], err := none, loading := true, message := "Initializing...",
    state := State.Viewing, addingState := AddingState.InputName,
    tableRows := [], tableCursor := 0,
    textValue := "", textPlaceholder := "", textFocused := false,
    statusItems := ["Online", "Offline", "Maintenance"], statusIndex := 0,
    currentServer := Server.zero, deleteTarget := "",
    currentMsgStyle := MsgStyle.plain, timerArmed := false }

/-- One request issued by the remote client. -/
inductive Request
  | get
  | post (sv : Server)
  | del (name : String)
deriving DecidableEq, Repr

/-- Decoding the body of a 200 list response either fails with the
decoder's message or yields the entry list. -/
inductive DecodeResult
  | failed (e : String)
  | ok (servers : List Server)
deriving DecidableEq, Repr

/-- The world's answer to the GET `/inventory` of `fetchServers`:
request construction failed, the connection failed, or a response with a
status code arrived and its body decoded as given. -/
inductive GetOutcome
  | reqErr (e : String)
  | connErr (e : String)
  | status (code : Nat) (decoded : DecodeResult)
deriving DecidableEq, Repr

/-- The world's answer to the POST `/report` of `addOrEditServer`. -/
inductive PostOutcome
  | reqErr (e : String)
  | connErr (e : String)
  | status (code : Nat) (body : String)
deriving DecidableEq, Repr

/-- fetchServers (lines 506-530) run against a given world answer:
the message it returns and the requests it issued. -/
def fetchServersRun (g : GetOutcome) : Msg × List Request :=
  match g with
  | GetOutcome.reqErr e => (Msg.errM ("could not create request: " ++ e), [])
  | GetOutcome.connErr e =>
      (Msg.errM ("could not connect to API: " ++ e), [Request.get])
  | GetOutcome.status code dec =>
      if code ≠ 200 then
        (Msg.errM ("API request failed with status code " ++ toString code),
         [Request.get])
      else
        match dec with
        | DecodeResult.failed e =>
            (Msg.errM ("failed to decode JSON: " ++ e), [Request.get])
        | DecodeResult.ok ss => (Msg.serverList ss, [Request.get])

/-- addOrEditServer (lines 533-557) run against given world answers: on
a 200 to the POST it chains into `fetchServers`. -/
def addOrEditServerRun (sv : Server) (p : PostOutcome) (g : GetOutcome) :
    Msg × List Request :=
  match p with
  | PostOutcome.reqErr e => (Msg.errM ("could not create request: " ++ e), [])
  | PostOutcome.connErr e =>
      (Msg.errM ("failed to send request: " ++ e), [Request.post sv])
  | PostOutcome.status code body =>
      if code ≠ 200 then
        (Msg.errM ("API request failed: " ++ body), [Request.post sv])
      else
        let r := fetchServersRun g
        (r.1, Request.post sv :: r.2)

/-! Helper lemmas. -/

theorem length_enter : "enter".length = 5 := rfl

theorem dropWhile_replicate_space (n : Nat) (l : List Char) :
    List.dropWhile isSpaceGo (List.replicate n ' ' ++ l) =
      List.dropWhile isSpaceGo l := by
  induction n with
  | zero => simp
  | succ n ih =>
      rw [List.replicate_succ, List.cons_append, List.dropWhile_cons]
      simp [isSpaceGo, ih]

theorem trimChars_self_parts (l : List Char) (h : trimChars l = l) :
    l.dropWhile isSpaceGo = l ∧
      l.reverse.dropWhile isSpaceGo = l.reverse := by
  have hsub : (l.dropWhile isSpaceGo).Sublist l := List.dropWhile_sublist isSpaceGo
  have hlen1 : ((l.dropWhile isSpaceGo).reverse.dropWhile isSpaceGo).length ≤
      (l.dropWhile isSpaceGo).length := by
    calc ((l.dropWhile isSpaceGo).reverse.dropWhile isSpaceGo).length
        ≤ (l.dropWhile isSpaceGo).reverse.length :=
          (List.dropWhile_sublist isSpaceGo).length_le
      _ = (l.dropWhile isSpaceGo).length := List.length_reverse _
  have hlen2 : (l.dropWhile isSpaceGo).length ≤ l.length := hsub.length_le
  have hlen0 : (trimChars l).length = l.length := by rw [h]
  have hlenEq : (l.dropWhile isSpaceGo).length = l.length := by
    have : (trimChars l).length ≤ (l.dropWhile isSpaceGo).length := by
      simp only [trimChars] at hlen1 ⊢
      simpa using hlen1
    omega
  have hd : l.dropWhile isSpaceGo = l := hsub.eq_of_length hlenEq
  refine ⟨hd, ?_⟩
  have h2 := h
  unfold trimChars at h2
  rw [hd] at h2
  have := congrArg List.reverse h2
  simpa using this

theorem trimChars_append_spaces (l : List Char) (n : Nat)
    (h : trimChars l = l) : trimChars (l ++ List.replicate n ' ') = l := by
  obtain ⟨hd, htr⟩ := trimChars_self_parts l h
  cases l with
  | nil =>
      simp only [List.nil_append]
      unfold trimChars
      rw [show List.replicate n ' ' = List.replicate n ' ' ++ ([] : List Char) by simp,
        dropWhile_replicate_space]
      simp
  | cons c t =>
      have hc : isSpaceGo c = false := by
        by_cases hpc : isSpaceGo c = true
        · exfalso
          have hd2 := hd
          rw [List.dropWhile_cons, hpc] at hd2
          simp at hd2
          have hle := (List.dropWhile_sublist (l := t) isSpaceGo).length_le
          have : (List.dropWhile isSpaceGo t).length = t.length + 1 := by
            rw [hd2]; simp
          omega
        · simpa using hpc
      unfold trimChars
      rw [List.cons_append, List.dropWhile_cons, hc]
      simp only [Bool.false_eq_true, if_false]
      rw [show (c :: (t ++ List.replicate n ' ')).reverse =
            List.replicate n ' ' ++ (c :: t).reverse by
          simp [List.reverse_cons, List.reverse_append],
        dropWhile_replicate_space, htr]
      simp

theorem trim_pad (s : String) (h : trimSpace s = s) :
    trimSpace (padStatus s) = s := by
  unfold padStatus
  split_ifs with hlen
  · have hdata : trimChars s.data = s.data := by
      have := congrArg String.data h
      simpa [trimSpace] using this
    have key : trimSpace (s ++ String.mk (List.replicate (12 - s.length) ' ')) =
        String.mk s.data := by
      simp only [trimSpace]
      rw [show (s ++ String.mk (List.replicate (12 - s.length) ' ')).data =
            s.data ++ List.replicate (12 - s.length) ' ' by
          cases s; rfl]
      rw [trimChars_append_spaces _ _ hdata]
    simpa using key
  · exact h

/-- The keys that leave the wizard: escape at any step, and the
confirm/reject answers at the Confirm step. -/
def exitKey (k : String) : Bool :=
  k = "esc" ∨ k = "y" ∨ k = "Y" ∨ k = "n" ∨ k = "N"

theorem wizard_step_preserves (now : String) (m : Model) (k : String)
    (hw : m.state = State.Adding ∨ m.state = State.Editing)
    (hk : exitKey k = false) :
    (update now m (Msg.key k)).1.state = m.state ∧
      (update now m (Msg.key k)).1.servers = m.servers ∧
      ((update now m (Msg.key k)).2.filter Eff.isSubmit) = [] := by
  simp only [exitKey, decide_eq_false_iff_not, not_or] at hk
  obtain ⟨h1, h2, h3, h4, h5⟩ := hk
  rcases hw with hw | hw <;>
    cases ha : m.addingState <;>
      simp [update, updateAddingEditing, textInputUpdate, statusListUpdate,
            setTempMessage, hw, ha, h1, h2, h3, h4, h5] <;>
      split_ifs <;> simp [Eff.isSubmit]

theorem wizard_esc (now : String) (m : Model)
    (hw : m.state = State.Adding ∨ m.state = State.Editing) :
    (update now m (Msg.key "esc")).1.state = State.Viewing ∧
      (update now m (Msg.key "esc")).1.message = "Cancelled." ∧
      (update now m (Msg.key "esc")).1.currentMsgStyle = MsgStyle.cancel ∧
      (update now m (Msg.key "esc")).1.servers = m.servers ∧
      (update now m (Msg.key "esc")).2 = [] := by
  rcases hw with hw | hw <;>
    simp [update, updateAddingEditing, setTempMessage, hw]

theorem wizard_keys_then_esc (now : String) (ks : List String) :
    ∀ m : Model, (m.state = State.Adding ∨ m.state = State.Editing) →
    (∀ k ∈ ks, exitKey k = false) →
    ((processKeys now m (ks ++ ["esc"])).1.state = State.Viewing ∧
      (processKeys now m (ks ++ ["esc"])).1.message = "Cancelled." ∧
      (processKeys now m (ks ++ ["esc"])).1.currentMsgStyle = MsgStyle.cancel ∧
      (processKeys now m (ks ++ ["esc"])).1.servers = m.servers ∧
      ((processKeys now m (ks ++ ["esc"])).2.filter Eff.isSubmit) = []) := by
  induction ks with
  | nil =>
      intro m hw _
      have hesc := wizard_esc now m hw
      simp only [List.nil_append, processKeys]
      exact ⟨hesc.1, hesc.2.1, hesc.2.2.1, hesc.2.2.2.1, by
        rw [List.filter_append, hesc.2.2.2.2]; rfl⟩
  | cons k rest ih =>
      intro m hw hks
      have hk : exitKey k = false := hks k (List.mem_cons_self k rest)
      have hstep := wizard_step_preserves now m k hw hk
      have hw2 : (update now m (Msg.key k)).1.state = State.Adding ∨
          (update now m (Msg.key k)).1.state = State.Editing := by
        rcases hw with hw | hw
        · exact Or.inl (hstep.1.trans hw)
        · exact Or.inr (hstep.1.trans hw)
      have hrest := ih (update now m (Msg.key k)).1 hw2
        (fun k2 hk2 => hks k2 (List.mem_cons_of_mem k hk2))
      simp only [List.cons_append, processKeys]
      refine ⟨hrest.1, hrest.2.1, hrest.2.2.1, ?_, ?_⟩
      · exact hrest.2.2.2.1.trans hstep.2.1
      · simp only [List.filter_append, hstep.2.2, List.nil_append]
        exact hrest.2.2.2.2

theorem viewing_key_no_submit (now : String) (m : Model) (k : String)
    (h : m.state = State.Viewing) :
    (update now m (Msg.key k)).1.servers = m.servers ∧
      ((update now m (Msg.key k)).2.filter Eff.isSubmit) = [] := by
  simp only [update, h, updateViewing]
  split_ifs <;> simp [tableUpdate, Eff.isSubmit] <;> split_ifs <;> simp

/-- Ghost record of which wizard fields the preceding steps have
committed: entering the wizard resets it, each enter-commit of the real
transition marks its field. -/
structure Committed where
  cname : Bool
  cip : Bool
  cloc : Bool
  cstatus : Bool
deriving DecidableEq, Repr

def Committed.start : Committed := ⟨false, false, false, false⟩

/-- Instrumentation alongside `update` for a key press: which fields are
committed after the transition.  Mirrors exactly the transitions of
`updateViewing` and `updateAddingEditing` that enter the wizard or commit
a field. -/
def nextCommitted (m : Model) (k : String) (c : Committed) : Committed :=
  match m.state with
  | State.Viewing => if k = "a" ∨ k = "e" then Committed.start else c
  | State.Adding | State.Editing =>
      if k = "enter" then
        match m.addingState with
        | AddingState.InputName => { c with cname := true }
        | AddingState.InputIP => { c with cip := true }
        | AddingState.InputLocation => { c with cloc := true }
        | AddingState.InputStatus => { c with cstatus := true }
        | AddingState.Confirm => c
      else c
  | _ => c

/-- Run a key sequence keeping the ghost committed-fields record. -/
def runCommitted (now : String) (m : Model) (c : Committed)
    (ks : List String) : Model × Committed :=
  match ks with
  | [] => (m, c)
  | k :: rest =>
      runCommitted now (update now m (Msg.key k)).1 (nextCommitted m k c) rest

/-- The wizard-step invariant: at each step, the fields of all earlier
steps have been committed. -/
def committedInv (m : Model) (c : Committed) : Prop :=
  (m.state = State.Adding ∨ m.state = State.Editing) →
    match m.addingState with
    | AddingState.InputName => True
    | AddingState.InputIP => c.cname = true
    | AddingState.InputLocation => c.cname = true ∧ c.cip = true
    | AddingState.InputStatus => c.cname = true ∧ c.cip = true ∧ c.cloc = true
    | AddingState.Confirm =>
        c.cname = true ∧ c.cip = true ∧ c.cloc = true ∧ c.cstatus = true

theorem committedInv_step (now : String) (m : Model) (c : Committed)
    (k : String) (h : committedInv m c) :
    committedInv (update now m (Msg.key k)).1 (nextCommitted m k c) := by
  cases hs : m.state with
  | Viewing =>
      unfold committedInv
      simp only [update, updateViewing, nextCommitted, hs]
      split_ifs <;> simp_all [committedInv, tableUpdate] <;>
        (try split_ifs) <;> simp_all
  | Adding | Editing =>
      have hinv := h (by rw [hs]; simp)
      cases ha : m.addingState <;>
        rw [ha] at hinv <;>
          unfold committedInv <;>
          simp only [update, updateAddingEditing, nextCommitted, hs, ha,
            textInputUpdate, statusListUpdate, setTempMessage] <;>
          split_ifs <;> simp_all
  | Deleting =>
      unfold committedInv
      simp only [update, updateDeleting, nextCommitted, hs, setTempMessage]
      split_ifs <;> simp_all
  | Help =>
      unfold committedInv
      simp only [update, updateHelp, nextCommitted, hs]
      simp_all

theorem committedInv_run (now : String) (ks : List String) :
    ∀ (m : Model) (c : Committed), committedInv m c →
      committedInv (runCommitted now m c ks).1 (runCommitted now m c ks).2 := by
  induction ks with
  | nil => intro m c h; simpa [runCommitted] using h
  | cons k rest ih =>
      intro m c h
      simp only [runCommitted]
      exact ih _ _ (committedInv_step now m c k h)

theorem runCommitted_fst (now : String) (ks : List String) :
    ∀ (m : Model) (c : Committed),
      (runCommitted now m c ks).1 = (processKeys now m ks).1 := by
  induction ks with
  | nil => intro m c; rfl
  | cons k rest ih => intro m c; simp only [runCommitted, processKeys]; exact ih _ _

/-- The submit transition: pressing y at the Confirm step. -/
theorem confirm_submit (now : String) (m : Model)
    (hw : m.state = State.Adding ∨ m.state = State.Editing)
    (hc : m.addingState = AddingState.Confirm) :
    (update now m (Msg.key "y")).1.state = State.Viewing ∧
      (update now m (Msg.key "y")).1.loading = true ∧
      (update now m (Msg.key "y")).2 = [Eff.addOrEdit m.currentServer] := by
  rcases hw with hw | hw <;>
    simp [update, updateAddingEditing, setTempMessage, hw, hc]

/-! Concrete sample states used by the witnesses and counterexamples. -/

def sampleServer : Server := ⟨"srv-1", "10.0.0.1", "dc-1", "Online", "ts"⟩

def otherServer : Server := ⟨"srv-2", "10.0.0.2", "dc-2", "Offline", "ts2"⟩

/-- A session with one entry whose table was built by `updateTable`. -/
def tableReadyModel : Model :=
  Model.updateTable { initModel with servers := [sampleServer] }

/-- A session sitting at the first wizard step of add mode while still
holding one entry fetched earlier. -/
def wizardOpenModel : Model :=
  { initModel with state := State.Adding, addingState := AddingState.InputName,
                   servers := [sampleServer] }

/-- Add mode at the Name step with surrounding blanks typed into the
text field. -/
def nameStepModel : Model :=
  { initModel with state := State.Adding, addingState := AddingState.InputName,
                   textValue := " edge " }

/-- Edit mode at the Location step of an entry whose status is Offline,
with the status list still at its initial selection. -/
def locStepModel : Model :=
  { initModel with state := State.Editing, addingState := AddingState.InputLocation,
                   currentServer := { sampleServer with status := "Offline" },
                   statusIndex := 0, textValue := "dc-9" }

/-- An entry whose status carries a leading blank, and the session whose
table was built from it. -/
def spacedStatusServer : Server := ⟨"srv-1", "10.0.0.1", "dc-1", " Online", "ts"⟩

def spacedStatusModel : Model :=
  Model.updateTable { initModel with servers := [spacedStatusServer] }

/-- The key presses of the add scenario: a, type edge-1, enter, type
10.0.0.1, enter, type dc-1, enter, select Offline, enter. -/
def scenarioKeys : List String :=
  ["a", "e", "d", "g", "e", "-", "1", "enter",
   "1", "0", ".", "0", ".", "0", ".", "1", "enter",
   "d", "c", "-", "1", "enter", "down", "enter"]

/-! The claims. -/

/-- C1: the claim says the periodic refresh timer event, fired in Viewing
mode, emits a fetch effect and also re-arms the periodic timer.  What the
code does: the handler of the timer event returns exactly one fetch
effect and no transition of the controller ever returns the timer-arming
effect; the only `pollForUpdates` tick is the single one issued at
startup, so the 30-second timer fires once and is never re-armed. -/
theorem c1_poll_timer_fetch_no_rearm :
    (∀ (now : String) (m : Model), (update now m Msg.fetchTimer).2 =
        (if m.state = State.Viewing then [Eff.fetch] else [])) ∧
    (∀ (now : String) (m : Model) (msg : Msg),
        ((update now m msg).2.contains Eff.tick) = false) ∧
    initEffects = [Eff.fetch, Eff.tick] := by
  refine ⟨?_, ?_, rfl⟩
  · intro now m
    cases h : m.state <;>
      simp [update, updateViewing, updateAddingEditing, updateDeleting,
        updateHelp, h] <;>
      cases h2 : m.addingState <;> simp
  · intro now m msg
    cases msg <;> cases h : m.state <;>
      simp [update, updateViewing, updateAddingEditing, updateDeleting,
        updateHelp, setTempMessage, tableUpdate, Model.updateTable, h] <;>
      (try cases h2 : m.addingState) <;>
      (try split_ifs) <;>
      simp_all

/-- C2 counterexample: with the wizard open at the Name step, a
successful fetch result does not replace the entry list with the fetched
entries; the old list is kept. -/
theorem c2_wizard_fetch_not_replacing_cx :
    (update "t" wizardOpenModel (Msg.serverList [otherServer])).1.servers ≠
        [otherServer] ∧
      (update "t" wizardOpenModel (Msg.serverList [otherServer])).1.servers =
        [sampleServer] := by
  decide

/-- C2 as amended: in Adding or Editing mode a successful fetch result is
dropped entirely: the entry list stays what it was (the fetched entries
are discarded), and the wizard's mode, step, working entry, text field
and loading flag are unchanged as well. -/
theorem c2_wizard_fetch_dropped :
    ∀ (now : String) (m : Model) (ss : List Server),
    (m.state = State.Adding ∨ m.state = State.Editing) →
    ((update now m (Msg.serverList ss)).1.servers = m.servers ∧
     (update now m (Msg.serverList ss)).1.state = m.state ∧
     (update now m (Msg.serverList ss)).1.addingState = m.addingState ∧
     (update now m (Msg.serverList ss)).1.currentServer = m.currentServer ∧
     (update now m (Msg.serverList ss)).1.textValue = m.textValue ∧
     (update now m (Msg.serverList ss)).1.loading = m.loading) := by
  intro now m ss h
  rcases h with h | h <;>
    cases h2 : m.addingState <;>
      simp [update, updateAddingEditing, textInputUpdate, statusListUpdate, h, h2]

/-- C2 witness: the amended statement applied to the concrete wizard
state of the counterexample. -/
theorem c2_wizard_fetch_dropped_witness :
    (wizardOpenModel.state = State.Adding ∨
      wizardOpenModel.state = State.Editing) ∧
    ((update "t" wizardOpenModel (Msg.serverList [otherServer])).1.servers =
        wizardOpenModel.servers ∧
     (update "t" wizardOpenModel (Msg.serverList [otherServer])).1.state =
        wizardOpenModel.state ∧
     (update "t" wizardOpenModel (Msg.serverList [otherServer])).1.addingState =
        wizardOpenModel.addingState ∧
     (update "t" wizardOpenModel (Msg.serverList [otherServer])).1.currentServer =
        wizardOpenModel.currentServer ∧
     (update "t" wizardOpenModel (Msg.serverList [otherServer])).1.textValue =
        wizardOpenModel.textValue ∧
     (update "t" wizardOpenModel (Msg.serverList [otherServer])).1.loading =
        wizardOpenModel.loading) :=
  ⟨Or.inl rfl,
   c2_wizard_fetch_dropped "t" wizardOpenModel [otherServer] (Or.inl rfl)⟩

/-- C3 counterexample: at the Name step, enter commits the raw text
field value, not its trimmed value; and the enter that leaves the
Location step does not seed the status list from the working entry's
prior status (the selection stays where it was, here on Online although
the entry's status is Offline). -/
theorem c3_untrimmed_commit_cx :
    ((update "t" nameStepModel (Msg.key "enter")).1.currentServer.name =
        " edge " ∧
     trimSpace " edge " = "edge" ∧
     (update "t" nameStepModel (Msg.key "enter")).1.currentServer.name ≠
        trimSpace " edge ") ∧
    ((update "t" locStepModel (Msg.key "enter")).1.addingState =
        AddingState.InputStatus ∧
     locStepModel.currentServer.status = "Offline" ∧
     locStepModel.statusItems.getD
        ((update "t" locStepModel (Msg.key "enter")).1.statusIndex) "" =
       "Online") := by
  decide

/-- C3 as amended: at the Name, Address and Location steps, enter
commits the raw (untrimmed) value of the live text field into the
corresponding field of the working entry and advances exactly one step;
after the Name and Address steps the next text field is seeded with the
working entry's prior value for that field (empty in add mode, the
copied value in edit mode); after the Location step the text input is
blurred and the status list selection is left as it was, not seeded from
the entry. -/
theorem c3_enter_commits_raw_value :
    ∀ (now : String) (m : Model),
    (m.state = State.Adding ∨ m.state = State.Editing) →
    ((m.addingState = AddingState.InputName →
        ((update now m (Msg.key "enter")).1.currentServer.name = m.textValue ∧
         (update now m (Msg.key "enter")).1.addingState = AddingState.InputIP ∧
         (update now m (Msg.key "enter")).1.textValue = m.currentServer.ip ∧
         (update now m (Msg.key "enter")).1.textPlaceholder = "IP Address")) ∧
     (m.addingState = AddingState.InputIP →
        ((update now m (Msg.key "enter")).1.currentServer.ip = m.textValue ∧
         (update now m (Msg.key "enter")).1.addingState = AddingState.InputLocation ∧
         (update now m (Msg.key "enter")).1.textValue = m.currentServer.location ∧
         (update now m (Msg.key "enter")).1.textPlaceholder = "Location")) ∧
     (m.addingState = AddingState.InputLocation →
        ((update now m (Msg.key "enter")).1.currentServer.location = m.textValue ∧
         (update now m (Msg.key "enter")).1.addingState = AddingState.InputStatus ∧
         (update now m (Msg.key "enter")).1.textFocused = false ∧
         (update now m (Msg.key "enter")).1.statusIndex = m.statusIndex))) := by
  intro now m h
  rcases h with h | h <;>
    refine ⟨fun h2 => ?_, fun h2 => ?_, fun h2 => ?_⟩ <;>
      simp [update, updateAddingEditing, textInputUpdate, statusListUpdate,
        h, h2, length_enter]

/-- C3 witness: the amended statement at the concrete Name-step state of
the counterexample. -/
theorem c3_enter_commits_raw_value_witness :
    (nameStepModel.state = State.Adding ∨ nameStepModel.state = State.Editing) ∧
    ((nameStepModel.addingState = AddingState.InputName →
        ((update "t" nameStepModel (Msg.key "enter")).1.currentServer.name =
            nameStepModel.textValue ∧
         (update "t" nameStepModel (Msg.key "enter")).1.addingState =
            AddingState.InputIP ∧
         (update "t" nameStepModel (Msg.key "enter")).1.textValue =
            nameStepModel.currentServer.ip ∧
         (update "t" nameStepModel (Msg.key "enter")).1.textPlaceholder =
            "IP Address")) ∧
     (nameStepModel.addingState = AddingState.InputIP →
        ((update "t" nameStepModel (Msg.key "enter")).1.currentServer.ip =
            nameStepModel.textValue ∧
         (update "t" nameStepModel (Msg.key "enter")).1.addingState =
            AddingState.InputLocation ∧
         (update "t" nameStepModel (Msg.key "enter")).1.textValue =
            nameStepModel.currentServer.location ∧
         (update "t" nameStepModel (Msg.key "enter")).1.textPlaceholder =
            "Location")) ∧
     (nameStepModel.addingState = AddingState.InputLocation →
        ((update "t" nameStepModel (Msg.key "enter")).1.currentServer.location =
            nameStepModel.textValue ∧
         (update "t" nameStepModel (Msg.key "enter")).1.addingState =
            AddingState.InputStatus ∧
         (update "t" nameStepModel (Msg.key "enter")).1.textFocused = false ∧
         (update "t" nameStepModel (Msg.key "enter")).1.statusIndex =
            nameStepModel.statusIndex))) :=
  ⟨Or.inl rfl, c3_enter_commits_raw_value "t" nameStepModel (Or.inl rfl)⟩

/-- C4 counterexample: a successful fetch arms the 2-second expiry
timer; a failed fetch then installs its error message without cancelling
that pending timer, and when the stale expiry fires it resets the error
message's style to plain while the text stays. -/
theorem c4_error_keeps_stale_timer_cx :
    (update "12:00:00" initModel (Msg.serverList [])).1.timerArmed = true ∧
    (update "t" (update "12:00:00" initModel (Msg.serverList [])).1
        (Msg.errM "boom")).1.message = "boom" ∧
    (update "t" (update "12:00:00" initModel (Msg.serverList [])).1
        (Msg.errM "boom")).1.timerArmed = true ∧
    (update "t" (update "t" (update "12:00:00" initModel (Msg.serverList [])).1
        (Msg.errM "boom")).1 Msg.clearMsg).1.currentMsgStyle = MsgStyle.plain ∧
    (update "t" (update "t" (update "12:00:00" initModel (Msg.serverList [])).1
        (Msg.errM "boom")).1 Msg.clearMsg).1.message = "boom" := by
  decide

/-- C4 as amended: any keypress in Viewing mode cancels the pending
expiry timer and no Viewing-mode key handler re-arms it; a successful
fetch installs its message through the temp-message path, which cancels
the prior timer before arming its own; but a failed fetch installs its
message directly without cancelling, so a previously armed expiry stays
pending after the error message supersedes; and the expiry event resets
only the message style to plain, leaving the message text in place. -/
theorem c4_expiry_cancellation :
    (∀ (now : String) (m : Model) (k : String), m.state = State.Viewing →
        (update now m (Msg.key k)).1.timerArmed = false) ∧
    (∀ (now : String) (m : Model) (t : String), m.state = State.Viewing →
        ((update now m (Msg.errM t)).1.timerArmed = m.timerArmed ∧
         (update now m (Msg.errM t)).1.message = t)) ∧
    (∀ (now : String) (m : Model) (ss : List Server), m.state = State.Viewing →
        (update now m (Msg.serverList ss)).1.timerArmed = true) ∧
    (∀ (now : String) (m : Model), m.state = State.Viewing →
        ((update now m Msg.clearMsg).1.currentMsgStyle = MsgStyle.plain ∧
         (update now m Msg.clearMsg).1.message = m.message)) := by
  refine ⟨?_, ?_, ?_, ?_⟩
  · intro now m k h
    simp only [update, h, updateViewing]
    split_ifs <;> simp [tableUpdate] <;> split_ifs <;> simp
  · intro now m t h; simp [update, updateViewing, tableUpdate, h]
  · intro now m ss h
    simp [update, updateViewing, tableUpdate, setTempMessage, Model.updateTable, h]
  · intro now m h; simp [update, updateViewing, tableUpdate, h]

/-- C5: in Viewing mode a successful fetch fully replaces the entry list
with the fetched one (the table is rebuilt from it), clears the loading
flag and installs a success-styled message carrying the timestamp. -/
theorem c5_fetch_success_replaces :
    ∀ (now : String) (m : Model) (ss : List Server),
    m.state = State.Viewing →
    ((update now m (Msg.serverList ss)).1.servers = ss ∧
     (update now m (Msg.serverList ss)).1.loading = false ∧
     (update now m (Msg.serverList ss)).1.message =
        "Inventory refreshed at " ++ now ∧
     (update now m (Msg.serverList ss)).1.currentMsgStyle = MsgStyle.success ∧
     (update now m (Msg.serverList ss)).1.tableRows = ss.map serverRow) := by
  intro now m ss h
  simp [update, updateViewing, setTempMessage, tableUpdate, Model.updateTable, h]

/-- C5 witness: the theorem applied to the start state and a one-entry
fetch result. -/
theorem c5_fetch_success_replaces_witness :
    initModel.state = State.Viewing ∧
    ((update "12:00:00" initModel (Msg.serverList [sampleServer])).1.servers =
        [sampleServer] ∧
     (update "12:00:00" initModel (Msg.serverList [sampleServer])).1.loading =
        false ∧
     (update "12:00:00" initModel (Msg.serverList [sampleServer])).1.message =
        "Inventory refreshed at " ++ "12:00:00" ∧
     (update "12:00:00" initModel (Msg.serverList [sampleServer])).1.currentMsgStyle =
        MsgStyle.success ∧
     (update "12:00:00" initModel (Msg.serverList [sampleServer])).1.tableRows =
        [sampleServer].map serverRow) :=
  ⟨rfl, c5_fetch_success_replaces "12:00:00" initModel [sampleServer] rfl⟩

/-- C6: in Viewing mode a failed network result (the code folds
transport, status and decode failures into one error message event)
clears the loading flag, sets the message to the error's text styled
with the error style, which differs from the success style, keeps the
mode Viewing, leaves the entry list unchanged and returns no effects;
and every failure outcome of the list call produces such an error
event. -/
theorem c6_fetch_failure_handling :
    ∀ (now : String) (m : Model) (t : String),
    m.state = State.Viewing →
    ((update now m (Msg.errM t)).1.loading = false ∧
     (update now m (Msg.errM t)).1.message = t ∧
     (update now m (Msg.errM t)).1.currentMsgStyle = MsgStyle.cancel ∧
     MsgStyle.cancel ≠ MsgStyle.success ∧
     (update now m (Msg.errM t)).1.state = State.Viewing ∧
     (update now m (Msg.errM t)).1.servers = m.servers ∧
     (update now m (Msg.errM t)).2 = [] ∧
     (∀ e, (fetchServersRun (GetOutcome.connErr e)).1 =
        Msg.errM ("could not connect to API: " ++ e)) ∧
     (∀ code dec, code ≠ 200 →
        (fetchServersRun (GetOutcome.status code dec)).1 =
          Msg.errM ("API request failed with status code " ++ toString code)) ∧
     (∀ e, (fetchServersRun (GetOutcome.status 200 (DecodeResult.failed e))).1 =
        Msg.errM ("failed to decode JSON: " ++ e))) := by
  intro now m t h
  refine ⟨?_, ?_, ?_, by simp, ?_, ?_, ?_, fun e => rfl, ?_, fun e => rfl⟩
  · simp [update, updateViewing, tableUpdate, h]
  · simp [update, updateViewing, tableUpdate, h]
  · simp [update, updateViewing, tableUpdate, h]
  · simp [update, updateViewing, tableUpdate, h]
  · simp [update, updateViewing, tableUpdate, h]
  · simp [update, updateViewing, tableUpdate, h]
  · intro code dec hcode
    simp [fetchServersRun, hcode]

/-- C6 witness: the theorem applied to the start state and a concrete
HTTP 500 error text. -/
theorem c6_fetch_failure_handling_witness :
    initModel.state = State.Viewing ∧
    ((update "t" initModel (Msg.errM "API request failed with status code 500")).1.loading = false ∧
     (update "t" initModel (Msg.errM "API request failed with status code 500")).1.message =
        "API request failed with status code 500" ∧
     (update "t" initModel (Msg.errM "API request failed with status code 500")).1.currentMsgStyle =
        MsgStyle.cancel ∧
     MsgStyle.cancel ≠ MsgStyle.success ∧
     (update "t" initModel (Msg.errM "API request failed with status code 500")).1.state =
        State.Viewing ∧
     (update "t" initModel (Msg.errM "API request failed with status code 500")).1.servers =
        initModel.servers ∧
     (update "t" initModel (Msg.errM "API request failed with status code 500")).2 = [] ∧
     (∀ e, (fetchServersRun (GetOutcome.connErr e)).1 =
        Msg.errM ("could not connect to API: " ++ e)) ∧
     (∀ code dec, code ≠ 200 →
        (fetchServersRun (GetOutcome.status code dec)).1 =
          Msg.errM ("API request failed with status code " ++ toString code)) ∧
     (∀ e, (fetchServersRun (GetOutcome.status 200 (DecodeResult.failed e))).1 =
        Msg.errM ("failed to decode JSON: " ++ e))) :=
  ⟨rfl, c6_fetch_failure_handling "t" initModel
    "API request failed with status code 500" rfl⟩

/-- C7: entering the wizard from Viewing, committing any sequence of
field inputs (any keys that are not escape and not the Confirm-step
answers) and then cancelling with escape at whatever step was reached
lands back in Viewing with the Cancelled message, an entry list equal to
the pre-wizard list, and no create-or-update effect emitted anywhere in
the sequence. -/
theorem c7_cancel_discards_wizard :
    ∀ (now : String) (m : Model) (ek : String) (ks : List String),
    m.state = State.Viewing →
    ((update now m (Msg.key ek)).1.state = State.Adding ∨
      (update now m (Msg.key ek)).1.state = State.Editing) →
    (∀ k ∈ ks, exitKey k = false) →
    ((processKeys now m (ek :: (ks ++ ["esc"]))).1.state = State.Viewing ∧
      (processKeys now m (ek :: (ks ++ ["esc"]))).1.message = "Cancelled." ∧
      (processKeys now m (ek :: (ks ++ ["esc"]))).1.currentMsgStyle =
        MsgStyle.cancel ∧
      (processKeys now m (ek :: (ks ++ ["esc"]))).1.servers = m.servers ∧
      ((processKeys now m (ek :: (ks ++ ["esc"]))).2.filter Eff.isSubmit) = []) := by
  intro now m ek ks hv hw hks
  have hentry := viewing_key_no_submit now m ek hv
  have hrest := wizard_keys_then_esc now ks (update now m (Msg.key ek)).1 hw hks
  simp only [processKeys]
  refine ⟨hrest.1, hrest.2.1, hrest.2.2.1, ?_, ?_⟩
  · exact hrest.2.2.2.1.trans hentry.1
  · simp only [List.filter_append, hentry.2, List.nil_append]
    exact hrest.2.2.2.2

/-- C7 witness: the theorem applied to the start state, entering add
mode, typing one character and committing once before escaping. -/
theorem c7_cancel_discards_wizard_witness :
    initModel.state = State.Viewing ∧
    ((update "t" initModel (Msg.key "a")).1.state = State.Adding ∨
      (update "t" initModel (Msg.key "a")).1.state = State.Editing) ∧
    (∀ k ∈ ["x", "enter"], exitKey k = false) ∧
    ((processKeys "t" initModel ("a" :: (["x", "enter"] ++ ["esc"]))).1.state =
        State.Viewing ∧
      (processKeys "t" initModel ("a" :: (["x", "enter"] ++ ["esc"]))).1.message =
        "Cancelled." ∧
      (processKeys "t" initModel ("a" :: (["x", "enter"] ++ ["esc"]))).1.currentMsgStyle =
        MsgStyle.cancel ∧
      (processKeys "t" initModel ("a" :: (["x", "enter"] ++ ["esc"]))).1.servers =
        initModel.servers ∧
      ((processKeys "t" initModel ("a" :: (["x", "enter"] ++ ["esc"]))).2.filter
          Eff.isSubmit) = []) :=
  ⟨rfl, Or.inl (by decide), by decide,
   c7_cancel_discards_wizard "t" initModel "a" ["x", "enter"] rfl
     (Or.inl (by decide)) (by decide)⟩

/-- C8: the wizard never submits a partially committed entry.  First
conjunct: along any key-press run that starts in Viewing mode, whenever
the session is in the wizard at the Confirm step, the ghost record shows
all four fields (name, address, location, status) were committed by the
preceding steps since the wizard was entered, and the instrumented run
coincides with the real one.  Second: pressing y at Confirm moves to
Viewing, sets the loading flag and returns exactly one create-or-update
effect carrying the full working entry.  Third and fourth: a successful
POST of that entry chains into exactly the requests of one list fetch,
and a list fetch that reaches the network issues exactly one GET. -/
theorem c8_confirm_fully_committed_submit :
    (∀ (now : String) (m0 : Model) (ks : List String),
      m0.state = State.Viewing →
      (((runCommitted now m0 Committed.start ks).1.state = State.Adding ∨
        (runCommitted now m0 Committed.start ks).1.state = State.Editing) →
       (runCommitted now m0 Committed.start ks).1.addingState =
          AddingState.Confirm →
       ((runCommitted now m0 Committed.start ks).2.cname = true ∧
        (runCommitted now m0 Committed.start ks).2.cip = true ∧
        (runCommitted now m0 Committed.start ks).2.cloc = true ∧
        (runCommitted now m0 Committed.start ks).2.cstatus = true)) ∧
      (runCommitted now m0 Committed.start ks).1 = (processKeys now m0 ks).1) ∧
    (∀ (now : String) (m : Model),
      (m.state = State.Adding ∨ m.state = State.Editing) →
      m.addingState = AddingState.Confirm →
      ((update now m (Msg.key "y")).1.state = State.Viewing ∧
       (update now m (Msg.key "y")).1.loading = true ∧
       (update now m (Msg.key "y")).2 = [Eff.addOrEdit m.currentServer])) ∧
    (∀ (sv : Server) (body : String) (g : GetOutcome),
      (addOrEditServerRun sv (PostOutcome.status 200 body) g).2 =
        Request.post sv :: (fetchServersRun g).2) ∧
    (∀ (e : String) (code : Nat) (dec : DecodeResult),
      (fetchServersRun (GetOutcome.connErr e)).2 = [Request.get] ∧
      (fetchServersRun (GetOutcome.status code dec)).2 = [Request.get]) := by
  refine ⟨?_, ?_, ?_, ?_⟩
  · intro now m0 ks h0
    have hstart : committedInv m0 Committed.start := by
      intro hw; rw [h0] at hw; simp at hw
    have hrun := committedInv_run now ks m0 Committed.start hstart
    refine ⟨fun hw hc => ?_, runCommitted_fst now ks m0 Committed.start⟩
    have hfin := hrun hw
    rw [hc] at hfin
    exact hfin
  · exact fun now m hw hc => confirm_submit now m hw hc
  · intro sv body g
    simp [addOrEditServerRun]
  · intro e code dec
    refine ⟨rfl, ?_⟩
    simp only [fetchServersRun]
    split_ifs <;> cases dec <;> rfl

/-- C8 witness: the spec's add scenario evaluated concretely: after
pressing a, typing edge-1, enter, 10.0.0.1, enter, dc-1, enter,
selecting Offline and enter, the session is at Confirm with all four
fields committed and the working entry fully populated; y then returns
exactly one create-or-update effect carrying that entry, and a 200 to
the POST issues exactly one POST followed by one GET. -/
theorem c8_confirm_fully_committed_submit_witness :
    initModel.state = State.Viewing ∧
    ((runCommitted "t" initModel Committed.start scenarioKeys).1.state =
        State.Adding ∨
      (runCommitted "t" initModel Committed.start scenarioKeys).1.state =
        State.Editing) ∧
    (runCommitted "t" initModel Committed.start scenarioKeys).1.addingState =
      AddingState.Confirm ∧
    ((runCommitted "t" initModel Committed.start scenarioKeys).2.cname = true ∧
     (runCommitted "t" initModel Committed.start scenarioKeys).2.cip = true ∧
     (runCommitted "t" initModel Committed.start scenarioKeys).2.cloc = true ∧
     (runCommitted "t" initModel Committed.start scenarioKeys).2.cstatus = true) ∧
    (runCommitted "t" initModel Committed.start scenarioKeys).1.currentServer =
      ⟨"edge-1", "10.0.0.1", "dc-1", "Offline", ""⟩ ∧
    (update "t" (runCommitted "t" initModel Committed.start scenarioKeys).1
        (Msg.key "y")).2 =
      [Eff.addOrEdit ⟨"edge-1", "10.0.0.1", "dc-1", "Offline", ""⟩] ∧
    (addOrEditServerRun ⟨"edge-1", "10.0.0.1", "dc-1", "Offline", ""⟩
        (PostOutcome.status 200 "") (GetOutcome.status 200 (DecodeResult.ok []))).2 =
      [Request.post ⟨"edge-1", "10.0.0.1", "dc-1", "Offline", ""⟩, Request.get] :=
  ⟨rfl, Or.inl (by decide), by decide,
   (c8_confirm_fully_committed_submit.1 "t" initModel scenarioKeys rfl).1
     (Or.inl (by decide)) (by decide),
   by decide,
   ((c8_confirm_fully_committed_submit.2.1 "t"
       (runCommitted "t" initModel Committed.start scenarioKeys).1
       (Or.inl (by decide)) (by decide)).2.2.trans (by decide)),
   by decide⟩

/-- C9: the table projection yields one row per entry; the status cell's
style class is the positive (online) one exactly for status Online, the
negative (offline) one exactly for Offline and the neutral (other) one
otherwise; and a row gets the subdued alternating background exactly
when its position is odd and it is not the selected row. -/
theorem c9_projection_rows_styles :
    (∀ (m : Model), ((Model.updateTable m).tableRows).length =
        m.servers.length) ∧
    (∀ st, statusStyleOf st = StatusStyle.online ↔ st = "Online") ∧
    (∀ st, statusStyleOf st = StatusStyle.offline ↔ st = "Offline") ∧
    (∀ st, statusStyleOf st = StatusStyle.other ↔
        (st ≠ "Online" ∧ st ≠ "Offline")) ∧
    (∀ i sel : Nat, altBackground i sel = true ↔ (i % 2 = 1 ∧ i ≠ sel)) := by
  refine ⟨?_, ?_, ?_, ?_, ?_⟩
  · intro m; simp [Model.updateTable]
  · intro st; unfold statusStyleOf; split_ifs with h1 h2 <;> simp_all
  · intro st; unfold statusStyleOf; split_ifs with h1 h2 <;> simp_all
  · intro st; unfold statusStyleOf; split_ifs with h1 h2 <;> simp_all
  · intro i sel; simp [altBackground]

/-- C10 counterexample: an entry whose status has a leading blank (and
is at most 12 characters) does not round-trip: the edit snapshot holds
the trimmed status, not the original. -/
theorem c10_whitespace_status_cx :
    spacedStatusServer.status.length ≤ 12 ∧
    (update "t" spacedStatusModel (Msg.key "e")).1.currentServer.status =
      "Online" ∧
    (update "t" spacedStatusModel (Msg.key "e")).1.currentServer.status ≠
      spacedStatusServer.status := by
  decide

/-- C10 as amended: for an entry whose status is at most 12 characters
and carries no leading or trailing whitespace (TrimSpace leaves it
unchanged), starting an edit on its table row yields a working-entry
snapshot whose status equals the original exactly: the trim applied at
snapshot time undoes the padding applied at table-build time. -/
theorem c10_edit_status_roundtrip :
    ∀ (now : String) (m : Model) (sv : Server),
    m.state = State.Viewing →
    m.tableRows = m.servers.map serverRow →
    m.servers[m.tableCursor]? = some sv →
    trimSpace sv.status = sv.status →
    sv.status.length ≤ 12 →
    (update now m (Msg.key "e")).1.currentServer.status = sv.status := by
  intro now m sv hst hrows hget htrim _
  have hlt : m.tableCursor < m.servers.length := (List.getElem?_eq_some.mp hget).1
  have hpos : 0 < m.servers.length := Nat.lt_of_le_of_lt (Nat.zero_le _) hlt
  have hrow : m.tableRows[m.tableCursor]? = some (serverRow sv) := by
    rw [hrows]; simp [hget]
  simp [update, updateViewing, Model.selectedRow, hst, hrow, hpos, serverRow]
  exact trim_pad _ htrim

/-- C10 witness: the amended statement applied to a one-entry table
whose status is the clean string Online. -/
theorem c10_edit_status_roundtrip_witness :
    tableReadyModel.state = State.Viewing ∧
    tableReadyModel.tableRows = tableReadyModel.servers.map serverRow ∧
    tableReadyModel.servers[tableReadyModel.tableCursor]? = some sampleServer ∧
    trimSpace sampleServer.status = sampleServer.status ∧
    sampleServer.status.length ≤ 12 ∧
    (update "t" tableReadyModel (Msg.key "e")).1.currentServer.status =
      sampleServer.status :=
  ⟨rfl, rfl, rfl, by decide, by decide,
   c10_edit_status_roundtrip "t" tableReadyModel sampleServer rfl rfl rfl
     (by decide) (by decide)⟩

end WolfInv
